import Mathlib

/-! Verification development for the frame-processing pipeline and
fall-classification engine of `src/main.py` (Human-Fall-Detection).
Pixel and keypoint values are embedded as rationals, Python `int()`
truncation as `pyInt`, and the comparisons of `fall_detection` against
`len_factor = math.sqrt(lenSq)` are decided exactly over ℚ by `sqrtGt`
(resp. `sqrtGe` for the specification text's inclusive rule); the lemmas
`sqrtGt_iff` and `sqrtGe_iff` fix their real-number meaning. -/

namespace HFD

/-- Python `int()` on a rational value: truncation toward zero, computed
as the numerator T-divided by the (positive) denominator.  The lemma
`pyInt_eq_floor_or_ceil` restates it as floor for nonnegative arguments
and ceiling for negative ones. -/
def pyInt (q : ℚ) : ℤ := q.num.tdiv q.den

/-- Decides `t < Real.sqrt S` (for `0 ≤ S`) without leaving ℚ: used to state
the source's strict comparisons against `len_factor = math.sqrt S`.
Its meaning is fixed by `sqrtGt_iff`. -/
def sqrtGt (S t : ℚ) : Bool := decide (t < 0 ∨ t ^ 2 < S)

/-- Decides `t ≤ Real.sqrt S` (for `0 ≤ S`) without leaving ℚ: used to state
the specification text's inclusive comparisons against the length factor.
Its meaning is fixed by `sqrtGe_iff`. -/
def sqrtGe (S t : ℚ) : Bool := decide (t ≤ 0 ∨ t ^ 2 ≤ S)

/-- A detected person's flat keypoint vector, as produced by the external
pose extractor (`output_to_keypoint`): positional numeric fields.  A read
past the end of the vector is a Python `IndexError`. -/
abbrev Pose := List ℚ

/-- Verdict of the classifier for one frame's detections: `upright` models
the Python pair `(False, None)` and `fallen box` models
`(True, (xmin, ymin, xmax, ymax))`. -/
inductive Verdict
  | upright
  | fallen (box : ℚ × ℚ × ℚ × ℚ)
  deriving DecidableEq

/-- The positions of a keypoint vector read by `fall_detection`
(src/main.py lines 50-60): box center/extent 2-5, left shoulder 22/23,
right shoulder y 26, left body-center 40/41, right body-center y 44,
left foot y 53, right foot y 56. -/
def readIdx : List ℕ := [2, 3, 4, 5, 22, 23, 26, 40, 41, 44, 53, 56]

/-- Per-person body of the loop of `fall_detection` (src/main.py lines
49-77).  All twelve positional reads happen unconditionally in the source
before the test, so a vector missing any of them raises (Python
`IndexError`), modelled as `none`.  A comparison such as
`left_shoulder_y > left_foot_y - len_factor` with
`len_factor = math.sqrt(lenSq)` is stated as
`sqrtGt lenSq (left_foot_y - left_shoulder_y)`, and
`left_body_y > left_foot_y - len_factor / 2` as
`sqrtGt lenSq (2 * (left_foot_y - left_body_y))`; `difference < 0` is the
source's `int`-truncated `dy - dx` test. -/
def poseVerdict (pose : Pose) : Option Verdict :=
  match pose[2]?, pose[3]?, pose[4]?, pose[5]?, pose[22]?, pose[23]?, pose[26]?,
      pose[40]?, pose[41]?, pose[44]?, pose[53]?, pose[56]? with
  | some c2, some c3, some c4, some c5, some lsx, some lsy, some rsy,
      some lbx, some lby, some rby, some lfy, some rfy =>
    let xmin := c2 - c4 / 2
    let ymin := c3 - c5 / 2
    let xmax := c2 + c4 / 2
    let ymax := c3 + c5 / 2
    let lenSq := (lsy - lby) ^ 2 + (lsx - lbx) ^ 2
    let dx := pyInt xmax - pyInt xmin
    let dy := pyInt ymax - pyInt ymin
    let difference := dy - dx
    if (sqrtGt lenSq (lfy - lsy) && sqrtGt lenSq (2 * (lfy - lby)) &&
        sqrtGt lenSq (2 * (lby - lsy))) ||
       (sqrtGt lenSq (rfy - rsy) && sqrtGt lenSq (2 * (rfy - rby)) &&
        sqrtGt lenSq (2 * (rby - rsy))) ||
       decide (difference < 0) then
      some (.fallen (xmin, ymin, xmax, ymax))
    else
      some .upright
  | _, _, _, _, _, _, _, _, _, _, _, _ => none

/-- `fall_detection` (src/main.py lines 44-78): the detected persons are
scanned in detection order and the first one meeting the fall condition
yields `fallen` with its box; if none does (in particular for an empty
detection list) the result is `upright`.  An out-of-range positional read
on any scanned person raises, modelled as `none`. -/
def fall_detection : List Pose → Option Verdict
  | [] => some .upright
  | pose :: rest =>
    match poseVerdict pose with
    | none => none
    | some (.fallen box) => some (.fallen box)
    | some .upright => fall_detection rest

/-- Reference per-person rule written from the specification's words
(spec §4.1): inclusive (≥) comparisons against the length factor and its
half, and condition (c) stated as `width - height > 0` on the raw box
extent.  Compare with `poseVerdict`, which is taken from the source. -/
def specPoseVerdict (pose : Pose) : Option Verdict :=
  match pose[2]?, pose[3]?, pose[4]?, pose[5]?, pose[22]?, pose[23]?, pose[26]?,
      pose[40]?, pose[41]?, pose[44]?, pose[53]?, pose[56]? with
  | some centerX, some centerY, some width, some height, some lShoulderX,
      some lShoulderY, some rShoulderY, some lBodyX, some lBodyY, some rBodyY,
      some lFootY, some rFootY =>
    let lenSq := (lShoulderY - lBodyY) ^ 2 + (lShoulderX - lBodyX) ^ 2
    if (sqrtGe lenSq (lFootY - lShoulderY) && sqrtGe lenSq (2 * (lFootY - lBodyY)) &&
        sqrtGe lenSq (2 * (lBodyY - lShoulderY))) ||
       (sqrtGe lenSq (rFootY - rShoulderY) && sqrtGe lenSq (2 * (rFootY - rBodyY)) &&
        sqrtGe lenSq (2 * (rBodyY - rShoulderY))) ||
       decide (width - height > 0) then
      some (.fallen (centerX - width / 2, centerY - height / 2,
        centerX + width / 2, centerY + height / 2))
    else
      some .upright
  | _, _, _, _, _, _, _, _, _, _, _, _ => none

/-- Reference classifier written from the specification's words (spec
§4.1): candidates evaluated in detection order, first match wins, empty
input is upright, malformed vectors are a shape error. -/
def specClassify : List Pose → Option Verdict
  | [] => some .upright
  | pose :: rest =>
    match specPoseVerdict pose with
    | none => none
    | some (.fallen box) => some (.fallen box)
    | some .upright => specClassify rest

/-- The specification's per-person rule amended to what the source does:
strict (>) comparisons against the length factor, and condition (c)
computed on the `int`-truncated box corners as
`(int ymax - int ymin) - (int xmax - int xmin) < 0`. -/
def specPoseVerdictAmended (pose : Pose) : Option Verdict :=
  match pose[2]?, pose[3]?, pose[4]?, pose[5]?, pose[22]?, pose[23]?, pose[26]?,
      pose[40]?, pose[41]?, pose[44]?, pose[53]?, pose[56]? with
  | some c2, some c3, some c4, some c5, some lsx, some lsy, some rsy,
      some lbx, some lby, some rby, some lfy, some rfy =>
    let xmin := c2 - c4 / 2
    let ymin := c3 - c5 / 2
    let xmax := c2 + c4 / 2
    let ymax := c3 + c5 / 2
    let lenSq := (lsy - lby) ^ 2 + (lsx - lbx) ^ 2
    let dx := pyInt xmax - pyInt xmin
    let dy := pyInt ymax - pyInt ymin
    let difference := dy - dx
    if (sqrtGt lenSq (lfy - lsy) && sqrtGt lenSq (2 * (lfy - lby)) &&
        sqrtGt lenSq (2 * (lby - lsy))) ||
       (sqrtGt lenSq (rfy - rsy) && sqrtGt lenSq (2 * (rfy - rby)) &&
        sqrtGt lenSq (2 * (rby - rsy))) ||
       decide (difference < 0) then
      some (.fallen (xmin, ymin, xmax, ymax))
    else
      some .upright
  | _, _, _, _, _, _, _, _, _, _, _, _ => none

/-- The specification's classifier amended to what the source does (see
`specPoseVerdictAmended`). -/
def specClassifyAmended : List Pose → Option Verdict
  | [] => some .upright
  | pose :: rest =>
    match specPoseVerdictAmended pose with
    | none => none
    | some (.fallen box) => some (.fallen box)
    | some .upright => specClassifyAmended rest

/-- Alert color of src/main.py line 17 (BGR). -/
def RED_COLOR : ℕ × ℕ × ℕ := (0, 0, 255)

/-- One cv2 drawing call recorded on an image overlay. -/
inductive DrawOp
  | rectangle (corner1 corner2 : ℤ × ℤ) (color : ℕ × ℕ × ℕ) (thickness : ℕ)
  | text (label : String) (org : ℤ × ℤ) (color : ℕ × ℕ × ℕ) (thickness : ℕ)
  deriving DecidableEq

/-- A prepared output frame: the opaque pixel payload produced by
`prepare_image` (src/main.py 120-123), plus the overlay drawing calls
applied to it, in order. -/
structure Image where
  base : ℕ
  ops : List DrawOp
  deriving DecidableEq

/-- `draw_falling_alarm` (src/main.py lines 81-88).  The text height
returned by `cv2.getTextSize` is external and passed in as `textHeight`;
the label is put at `(int(x_min), int(y_min - text_height - 10))`, with
no clamping against the frame boundary. -/
def draw_falling_alarm (textHeight : ℚ) (image : Image)
    (bbox : ℚ × ℚ × ℚ × ℚ) : Image :=
  match bbox with
  | (x_min, y_min, x_max, y_max) =>
    { image with ops := image.ops ++
        [DrawOp.rectangle (pyInt x_min, pyInt y_min) (pyInt x_max, pyInt y_max)
          RED_COLOR 5,
         DrawOp.text "Person Fell down"
          (pyInt x_min, pyInt (y_min - textHeight - 10)) RED_COLOR 3] }

/-- Annotation step of `process_frame` (src/main.py lines 141-142): an
upright verdict leaves the prepared frame untouched; a fallen verdict
draws the alarm overlay on it. -/
def annotate (textHeight : ℚ) (image : Image) (verdict : Verdict) : Image :=
  match verdict with
  | .upright => image
  | .fallen bbox => draw_falling_alarm textHeight image bbox

/-- Whether a produced frame carries any alarm overlay. -/
def hasAlarm (image : Image) : Bool := !image.ops.isEmpty

/-- A per-frame failure: a positional read past the end of a keypoint
vector (Python `IndexError` inside `fall_detection`), or a failure of the
external pose-extraction call.  src/main.py contains no `try`/`except`,
so either one propagates. -/
inductive PipeError
  | indexError
  | extractorError
  deriving DecidableEq

/-- A decoded input frame, identified by its position in the stream. -/
abbrev Frame := ℕ

/-- `process_frame` (src/main.py lines 137-143).  `ex` stands for the
external `get_pose` call (model inference + `output_to_keypoint`), which
may fail; `prep` stands for `prepare_image`, producing the opaque pixel
payload of the output frame.  There is no error handling: an extraction
failure or an out-of-range keypoint read propagates. -/
def process_frame (textHeight : ℚ) (prep : Frame → ℕ)
    (ex : Frame → Except PipeError (List Pose)) (frame : Frame) :
    Except PipeError Image :=
  match ex frame with
  | .error e => .error e
  | .ok output =>
    match fall_detection output with
    | none => .error .indexError
    | some verdict => .ok (annotate textHeight ⟨prep frame, []⟩ verdict)

/-- Batch pipeline of `process_video` over the already-acquired frame
list (src/main.py lines 155-165): every frame is processed (the pool's
`executor.map` keeps submission order) and the full result list is
materialized by `list(...)` before the write loop emits it, in order, to
the sink.  An exception from any frame surfaces, in input order, while
the result list is being collected, before anything is written; modelled
as the first `error` in frame order.  Frame acquisition from the source
(lines 127 and 156-159) is modelled on top of this by
`video_session`. -/
def process_video (textHeight : ℚ) (prep : Frame → ℕ)
    (ex : Frame → Except PipeError (List Pose)) :
    List Frame → Except PipeError (List Image)
  | [] => .ok []
  | frame :: rest =>
    match process_frame textHeight prep ex frame with
    | .error e => .error e
    | .ok image =>
      match process_video textHeight prep ex rest with
      | .error e => .error e
      | .ok images => .ok (image :: images)

/-- Number of completed-but-not-yet-emitted results that the batch run of
`process_video` holds when its write loop starts:
`list(tqdm(executor.map(...)))` (src/main.py line 162) materializes every
processed frame before the first `vid_out.write` (line 165), so on a
successful run this is the full output length. -/
def bufferedResultsAtEmission (textHeight : ℚ) (prep : Frame → ℕ)
    (ex : Frame → Except PipeError (List Pose)) (frames : List Frame) : ℕ :=
  match process_video textHeight prep ex frames with
  | .ok images => images.length
  | .error _ => 0

/-- Batch session of `process_video` over a finite frame source, frame
acquisition included (src/main.py lines 145-168): `prepare_vid_out`
(called at line 153) reads one frame from the capture at line 127 to fix
the output geometry, consuming the first source frame, and the read loop
at lines 156-159 then collects only the remaining frames, which are
processed and written in order.  The model covers nonempty sources; on
an empty source line 127 already fails inside the external video code,
before the pipeline modelled here. -/
def video_session (textHeight : ℚ) (prep : Frame → ℕ)
    (ex : Frame → Except PipeError (List Pose)) (source : List Frame) :
    Except PipeError (List Image) :=
  process_video textHeight prep ex source.tail

/-- Fan-in buffer of the pool run of src/main.py line 162, modelled with
an explicit completion order: the workers finish the submitted tasks in
the order listed by `order`, and each completed task deposits its result
keyed by the task's submission index. -/
def completedBuffer {α β : Type} (g : α → β) (xs : List α) :
    List ℕ → List (ℕ × β)
  | [] => []
  | j :: order =>
    match xs[j]? with
    | some x => (j, g x) :: completedBuffer g xs order
    | none => completedBuffer g xs order

/-- Emission side of `executor.map`: results are yielded strictly in
submission index order, reading the fan-in buffer by key. -/
def emitInOrder {β : Type} (buffer : List (ℕ × β)) (n : ℕ) : List β :=
  (List.range n).filterMap fun i => buffer.lookup i

/-- The pipeline scheduler of src/main.py lines 161-165: frames are fanned
out to a pool of `workerCount` workers (the count only influences which
completion orders can occur, never the emitted sequence), complete in the
order `order`, and are emitted strictly in submission index order. -/
def scheduleRun {α β : Type} (_workerCount : ℕ) (g : α → β) (xs : List α)
    (order : List ℕ) : List β :=
  emitInOrder (completedBuffer g xs order) xs.length

/-- A synthetic keypoint vector that `fall_detection` classifies as
upright: shoulders (y 0) well above body-centers (y 10) well above feet
(y 30), with a box taller (5) than wide (1) centered at (3, 4). -/
def uprightPose : Pose :=
  (List.replicate 57 (0 : ℚ)).set 2 3 |>.set 3 4 |>.set 4 1 |>.set 5 5
    |>.set 41 10 |>.set 44 10 |>.set 53 30 |>.set 56 30

/-- A synthetic keypoint vector that `fall_detection` classifies as
fallen through condition (a): left shoulder y 6, left body-center y 3,
left foot y 4, so the length factor is 3 and all three strict
comparisons hold; box centered at (3, 4) with extent (1, 5). -/
def fallenPose : Pose :=
  (List.replicate 57 (0 : ℚ)).set 2 3 |>.set 3 4 |>.set 4 1 |>.set 5 5
    |>.set 23 6 |>.set 41 3 |>.set 53 4

/-- A synthetic keypoint vector whose box is wider (11/5) than tall (2),
centered at (0, 1), with both side conditions clearly false: the
specification's `width - height > 0` rule fires on it, while the source's
`int`-truncated corner differences give `dy - dx = 0`. -/
def widePose : Pose :=
  (List.replicate 57 (0 : ℚ)).set 3 1 |>.set 4 (11 / 5) |>.set 5 2
    |>.set 41 10 |>.set 44 10 |>.set 53 30 |>.set 56 30

/-- A synthetic keypoint vector sitting exactly on the boundary of
condition (a): left shoulder and left body-center coincide at (0, 10), so
the length factor is 0, and the left foot y is also 10; the right-side
condition and the aspect condition are clearly false. -/
def boundaryPose : Pose :=
  (List.replicate 57 (0 : ℚ)).set 2 3 |>.set 3 4 |>.set 4 1 |>.set 5 5
    |>.set 23 10 |>.set 41 10 |>.set 53 10 |>.set 56 10

/-- Synthetic pose source for the end-to-end scenario: frame `k` contains
one fallen keypoint pattern, every other frame an upright pattern. -/
def scenarioEx (k : ℕ) : Frame → Except PipeError (List Pose) :=
  fun f => .ok (if f = k then [fallenPose] else [uprightPose])

/-- Faithfulness of `pyInt` to Python `int()`: it is the floor for
nonnegative arguments and the ceiling for negative ones, i.e. truncation
toward zero. -/
theorem pyInt_eq_floor_or_ceil (q : ℚ) :
    pyInt q = if q < 0 then ⌈q⌉ else ⌊q⌋ := by
  unfold pyInt
  by_cases hq : q < 0
  · rw [if_pos hq]
    have hq2 : ¬ (0 : ℤ) ≤ q.num := by
      rw [Rat.num_nonneg]
      exact not_le.mpr hq
    have hnum : 0 ≤ -q.num := by omega
    have hstep : q.num.tdiv q.den = -((-q.num).tdiv q.den) := by
      rw [Int.neg_tdiv, neg_neg]
    rw [hstep, Int.tdiv_eq_ediv hnum (by positivity)]
    have hceil : ⌈q⌉ = -⌊-q⌋ := by rw [Int.floor_neg, neg_neg]
    rw [hceil, Rat.floor_def, Rat.num_neg_eq_neg_num, Rat.den_neg_eq_den]
  · rw [if_neg hq]
    have hnum : 0 ≤ q.num := Rat.num_nonneg.mpr (not_lt.mp hq)
    rw [Int.tdiv_eq_ediv hnum (by positivity), Rat.floor_def]

/-- Faithfulness of `sqrtGt` to the source's `math.sqrt` comparison:
for a nonnegative radicand it decides exactly `t < Real.sqrt S`. -/
theorem sqrtGt_iff (S t : ℚ) (_hS : (0 : ℚ) ≤ S) :
    sqrtGt S t = true ↔ (t : ℝ) < Real.sqrt (S : ℝ) := by
  unfold sqrtGt
  rw [decide_eq_true_iff]
  by_cases ht : t < 0
  · simp only [ht, true_or, true_iff]
    exact lt_of_lt_of_le (by exact_mod_cast ht) (Real.sqrt_nonneg _)
  · have ht2 : (0 : ℝ) ≤ (t : ℝ) := by exact_mod_cast not_lt.mp ht
    rw [Real.lt_sqrt ht2]
    constructor
    · rintro (h | h)
      · exact absurd h ht
      · exact_mod_cast h
    · intro h
      exact Or.inr (by exact_mod_cast h)

/-- Faithfulness of `sqrtGe` to the specification's inclusive comparison:
for a nonnegative radicand it decides exactly `t ≤ Real.sqrt S`. -/
theorem sqrtGe_iff (S t : ℚ) (hS : (0 : ℚ) ≤ S) :
    sqrtGe S t = true ↔ (t : ℝ) ≤ Real.sqrt (S : ℝ) := by
  unfold sqrtGe
  rw [decide_eq_true_iff]
  by_cases ht : t ≤ 0
  · simp only [ht, true_or, true_iff]
    exact le_trans (by exact_mod_cast ht) (Real.sqrt_nonneg _)
  · have ht2 : (0 : ℝ) ≤ (t : ℝ) := by
      exact_mod_cast le_of_lt (not_le.mp ht)
    rw [Real.le_sqrt ht2 (by exact_mod_cast hS)]
    constructor
    · rintro (h | h)
      · exact absurd h ht
      · exact_mod_cast h
    · intro h
      exact Or.inr (by exact_mod_cast h)

/-- A keypoint vector too short to contain all fields read by the
classifier makes the per-person classification fail. -/
theorem poseVerdict_short (pose : Pose) (h : pose.length ≤ 56) :
    poseVerdict pose = none := by
  have h56 : pose[56]? = none := by
    rw [List.getElem?_eq_none_iff]
    exact h
  unfold poseVerdict
  split <;> simp_all

/-- C9: annotating a frame with an `Upright` verdict returns the frame
unchanged, and annotation with `Upright` is therefore idempotent:
`annotate (annotate f Upright) Upright = annotate f Upright = f`. -/
theorem annotate_upright_id (textHeight : ℚ) (image : Image) :
    annotate textHeight image .upright = image ∧
    annotate textHeight (annotate textHeight image .upright) .upright =
      annotate textHeight image .upright :=
  ⟨rfl, rfl⟩

/-- C8 counterexample: for a fallen box touching the top of the frame
(`y_min = 0`) and the actual Hershey-simplex text height 22, the warning
label is drawn at vertical coordinate `int(0 - 22 - 10) = -32 < 0`: the
label position is not clamped and renders above the frame's top
boundary. -/
theorem label_ordinate_negative_near_top :
    (draw_falling_alarm 22 ⟨0, []⟩ (5, 0, 50, 60)).ops =
      [DrawOp.rectangle (5, 0) (50, 60) RED_COLOR 5,
       DrawOp.text "Person Fell down" (5, -32) RED_COLOR 3] ∧
    (-32 : ℤ) < 0 := by
  constructor
  · with_unfolding_all decide
  · decide

/-- C8 amended: the annotator draws a thickness-5 rectangle outline
around the box in the fixed alert color and places the fixed warning
label above the rectangle's top edge at `int(y_min - textHeight - 10)`,
with no clamping: whenever `y_min - textHeight - 10 ≤ -1` the label's
vertical coordinate is negative, i.e. above the frame's top boundary. -/
theorem label_ordinate_unclamped (textHeight : ℚ) (image : Image)
    (x_min y_min x_max y_max : ℚ) (h : y_min - textHeight - 10 ≤ -1) :
    (draw_falling_alarm textHeight image (x_min, y_min, x_max, y_max)).ops =
      image.ops ++
        [DrawOp.rectangle (pyInt x_min, pyInt y_min) (pyInt x_max, pyInt y_max)
          RED_COLOR 5,
         DrawOp.text "Person Fell down"
          (pyInt x_min, pyInt (y_min - textHeight - 10)) RED_COLOR 3] ∧
    pyInt (y_min - textHeight - 10) < 0 := by
  refine ⟨rfl, ?_⟩
  have hneg : y_min - textHeight - 10 < 0 := lt_of_le_of_lt h (by norm_num)
  rw [pyInt_eq_floor_or_ceil, if_pos hneg]
  have hceil : ⌈y_min - textHeight - 10⌉ ≤ -1 := by
    rw [Int.ceil_le]
    exact_mod_cast h
  omega

/-- C8 amended, witness at the concrete near-top box of the
counterexample scenario. -/
theorem label_ordinate_unclamped_witness :
    (draw_falling_alarm 22 ⟨0, []⟩ (5, 0, 50, 60)).ops =
      Image.ops ⟨0, []⟩ ++
        [DrawOp.rectangle (pyInt 5, pyInt 0) (pyInt 50, pyInt 60) RED_COLOR 5,
         DrawOp.text "Person Fell down" (pyInt 5, pyInt (0 - 22 - 10))
          RED_COLOR 3] ∧
    pyInt (0 - 22 - 10) < 0 :=
  label_ordinate_unclamped 22 ⟨0, []⟩ 5 0 50 60 (by norm_num)

/-- C6 counterexample: a three-entry keypoint vector is too short for the
classifier's reads, and with it the session does not continue with the
frame treated as `Upright`: the whole run aborts with the index error,
producing no output at all (there is no `try`/`except` in src/main.py). -/
theorem short_pose_aborts_session :
    fall_detection [([0, 0, 0] : Pose)] = none ∧
    process_video 22 (fun j => j) (fun _ => .ok [[0, 0, 0]]) [0] =
      .error .indexError ∧
    process_video 22 (fun j => j) (fun _ => .ok [[0, 0, 0]]) [0] ≠
      .ok [⟨0, []⟩] := by
  refine ⟨rfl, rfl, ?_⟩
  intro hcontra
  rw [show process_video 22 (fun j => j) (fun _ => .ok [[0, 0, 0]]) [0] =
    .error .indexError from rfl] at hcontra
  exact Except.noConfusion hcontra

/-- C6 amended: a keypoint vector too short for the classifier's
positional reads makes the per-person classification and the whole
classification of its frame's detections fail, and the failure is not
contained: the frame's processing fails with the index error and a
session run containing that frame aborts with it (the frame is not
treated as `Upright`). -/
theorem short_pose_failure_propagates (pose : Pose) (more : List Pose)
    (h : pose.length ≤ 56) (textHeight : ℚ) (prep : Frame → ℕ)
    (ex : Frame → Except PipeError (List Pose)) (f : Frame)
    (fs : List Frame) (hex : ex f = .ok (pose :: more)) :
    poseVerdict pose = none ∧
    fall_detection (pose :: more) = none ∧
    process_frame textHeight prep ex f = .error .indexError ∧
    process_video textHeight prep ex (f :: fs) = .error .indexError := by
  have hpv : poseVerdict pose = none := poseVerdict_short pose h
  have hfd : fall_detection (pose :: more) = none := by
    rw [fall_detection, hpv]
  have hpf : process_frame textHeight prep ex f = .error .indexError := by
    simp [process_frame, hex, hfd]
  exact ⟨hpv, hfd, hpf, by simp [process_video, hpf]⟩

/-- C6 amended, witness at the concrete three-entry vector `[0, 0, 0]`. -/
theorem short_pose_failure_propagates_witness :
    poseVerdict ([0, 0, 0] : Pose) = none ∧
    fall_detection [([0, 0, 0] : Pose)] = none ∧
    process_frame 22 (fun j => j) (fun _ => .ok [[0, 0, 0]]) 1 =
      .error .indexError ∧
    process_video 22 (fun j => j) (fun _ => .ok [[0, 0, 0]]) [1] =
      .error .indexError :=
  short_pose_failure_propagates [0, 0, 0] [] (by decide) 22 (fun j => j)
    (fun _ => .ok [[0, 0, 0]]) 1 [] rfl

/-- C7 counterexample: with a pose extractor that fails on its frame the
run does not treat the frame as having zero detections and continue
upright: it aborts with the extractor error and produces no output
(src/main.py's `get_pose` has no retry and no handler). -/
theorem extractor_failure_aborts_session :
    process_video 22 (fun j => j) (fun _ => .error .extractorError) [0] =
      .error .extractorError ∧
    process_video 22 (fun j => j) (fun _ => .error .extractorError) [0] ≠
      .ok [⟨0, []⟩] := by
  refine ⟨rfl, ?_⟩
  intro hcontra
  exact Except.noConfusion hcontra

/-- C7 amended: a failing pose-extraction call is not retried and not
degraded to zero detections: the failure propagates out of the frame's
processing and a session run starting at that frame aborts with it. -/
theorem extractor_failure_propagates (textHeight : ℚ) (prep : Frame → ℕ)
    (ex : Frame → Except PipeError (List Pose)) (f : Frame)
    (fs : List Frame) (e : PipeError) (hex : ex f = .error e) :
    process_frame textHeight prep ex f = .error e ∧
    process_video textHeight prep ex (f :: fs) = .error e := by
  have hpf : process_frame textHeight prep ex f = .error e := by
    simp [process_frame, hex]
  exact ⟨hpf, by simp [process_video, hpf]⟩

/-- C7 amended, witness at a concrete always-failing extractor. -/
theorem extractor_failure_propagates_witness :
    process_frame 22 (fun j => j) (fun _ => .error .extractorError) 3 =
      .error .extractorError ∧
    process_video 22 (fun j => j) (fun _ => .error .extractorError) [3, 4] =
      .error .extractorError :=
  extractor_failure_propagates 22 (fun j => j)
    (fun _ => .error .extractorError) 3 [4] .extractorError rfl

/-- C1 counterexample: on `widePose` the specification's reference rule
(inclusive comparisons, `width - height > 0`) reports a fall with box
`(-11/10, 0, 11/10, 2)`, but `fall_detection` reports upright, because the
source computes condition (c) on `int`-truncated corners
(`dy - dx = 2 - 2 = 0`, not `< 0`). -/
theorem code_rule_differs_from_spec_rule :
    fall_detection [widePose] = some .upright ∧
    specClassify [widePose] =
      some (.fallen (-(11 / 10 : ℚ), 0, 11 / 10, 2)) := by
  constructor
  · with_unfolding_all decide
  · with_unfolding_all decide

/-- C1 amended: `fall_detection` agrees, on every finite sequence of
keypoint vectors, with the specification's reference rule amended to use
strict (>) comparisons in conditions (a)/(b) and to compute condition (c)
as `(int ymax - int ymin) - (int xmax - int xmin) < 0` on the truncated
box corners; candidates are evaluated in detection order with first match
winning, the box is `(centerX - width/2, centerY - height/2,
centerX + width/2, centerY + height/2)`, and an empty or never-matching
candidate list yields `Upright`. -/
theorem fall_detection_eq_amended_spec_rule (poses : List Pose) :
    fall_detection poses = specClassifyAmended poses := by
  induction poses with
  | nil => rfl
  | cons pose rest ih =>
    have hpv : poseVerdict pose = specPoseVerdictAmended pose := rfl
    rw [fall_detection, specClassifyAmended, hpv]
    cases specPoseVerdictAmended pose with
    | none => rfl
    | some v =>
      cases v with
      | upright => exact ih
      | fallen box => rfl

/-- C2 counterexample: `boundaryPose` sits exactly on condition (a)'s
boundary, with the other two inequalities at their boundaries as well:
its left shoulder and left body-center coincide at (0, 10), so the length
factor is `Real.sqrt 0 = 0`, and its left foot y is 10, hence
`shoulderY = footY - lenFactor`, `bodyY = footY - lenFactor / 2` and
`shoulderY = bodyY - lenFactor / 2` all hold with equality; yet
`fall_detection` returns `Upright`, because the source's comparisons are
strict (`>`), not inclusive (`≥`). -/
theorem boundary_pose_not_fallen :
    boundaryPose[23]? = some 10 ∧ boundaryPose[41]? = some 10 ∧
    boundaryPose[53]? = some 10 ∧ boundaryPose[22]? = some 0 ∧
    boundaryPose[40]? = some 0 ∧
    ((10 : ℝ) = 10 - Real.sqrt (((10 : ℝ) - 10) ^ 2 + ((0 : ℝ) - 0) ^ 2)) ∧
    ((10 : ℝ) =
      10 - Real.sqrt (((10 : ℝ) - 10) ^ 2 + ((0 : ℝ) - 0) ^ 2) / 2) ∧
    fall_detection [boundaryPose] = some .upright := by
  refine ⟨by with_unfolding_all decide, by with_unfolding_all decide,
    by with_unfolding_all decide, by with_unfolding_all decide,
    by with_unfolding_all decide, ?_, ?_, by with_unfolding_all decide⟩
  · rw [show ((10 : ℝ) - 10) ^ 2 + ((0 : ℝ) - 0) ^ 2 = 0 by norm_num,
      Real.sqrt_zero]
    norm_num
  · rw [show ((10 : ℝ) - 10) ^ 2 + ((0 : ℝ) - 0) ^ 2 = 0 by norm_num,
      Real.sqrt_zero]
    norm_num

/-- C2 amended: condition (a)'s comparisons are strict (`>`), so the
exact `≥` boundary itself does not count as fallen; a person strictly
past all three thresholds of condition (a) — left shoulder y strictly
greater than left foot y minus the length factor, left body-center y
strictly greater than left foot y minus half the length factor, left
shoulder y strictly greater than left body-center y minus half the
length factor — is classified `Fallen` with the box derived from its
center and extent fields. -/
theorem strict_condA_fallen (p : Pose) (rest : List Pose)
    (c2v c3v c4v c5v lsx lsy rsy lbx lby rby lfy rfy : ℚ)
    (h2 : p[2]? = some c2v) (h3 : p[3]? = some c3v)
    (h4 : p[4]? = some c4v) (h5 : p[5]? = some c5v)
    (h22 : p[22]? = some lsx) (h23 : p[23]? = some lsy)
    (h26 : p[26]? = some rsy) (h40 : p[40]? = some lbx)
    (h41 : p[41]? = some lby) (h44 : p[44]? = some rby)
    (h53 : p[53]? = some lfy) (h56 : p[56]? = some rfy)
    (ha1 : (lfy : ℝ) -
      Real.sqrt (((lsy : ℝ) - (lby : ℝ)) ^ 2 + ((lsx : ℝ) - (lbx : ℝ)) ^ 2) <
      (lsy : ℝ))
    (ha2 : (lfy : ℝ) -
      Real.sqrt (((lsy : ℝ) - (lby : ℝ)) ^ 2 + ((lsx : ℝ) - (lbx : ℝ)) ^ 2) /
        2 < (lby : ℝ))
    (ha3 : (lby : ℝ) -
      Real.sqrt (((lsy : ℝ) - (lby : ℝ)) ^ 2 + ((lsx : ℝ) - (lbx : ℝ)) ^ 2) /
        2 < (lsy : ℝ)) :
    fall_detection (p :: rest) =
      some (.fallen (c2v - c4v / 2, c3v - c5v / 2,
        c2v + c4v / 2, c3v + c5v / 2)) := by
  have hS : (0 : ℚ) ≤ (lsy - lby) ^ 2 + (lsx - lbx) ^ 2 := by positivity
  have hcast : (((lsy - lby) ^ 2 + (lsx - lbx) ^ 2 : ℚ) : ℝ) =
      ((lsy : ℝ) - (lby : ℝ)) ^ 2 + ((lsx : ℝ) - (lbx : ℝ)) ^ 2 := by
    push_cast
    ring
  have hb1 : sqrtGt ((lsy - lby) ^ 2 + (lsx - lbx) ^ 2) (lfy - lsy) = true := by
    rw [sqrtGt_iff _ _ hS, hcast]
    push_cast
    linarith
  have hb2 : sqrtGt ((lsy - lby) ^ 2 + (lsx - lbx) ^ 2)
      (2 * (lfy - lby)) = true := by
    rw [sqrtGt_iff _ _ hS, hcast]
    push_cast
    linarith
  have hb3 : sqrtGt ((lsy - lby) ^ 2 + (lsx - lbx) ^ 2)
      (2 * (lby - lsy)) = true := by
    rw [sqrtGt_iff _ _ hS, hcast]
    push_cast
    linarith
  have hpv : poseVerdict p =
      some (.fallen (c2v - c4v / 2, c3v - c5v / 2,
        c2v + c4v / 2, c3v + c5v / 2)) := by
    unfold poseVerdict
    rw [h2, h3, h4, h5, h22, h23, h26, h40, h41, h44, h53, h56]
    simp only [hb1, hb2, hb3, Bool.and_self, Bool.true_and, Bool.true_or,
      Bool.or_true, if_true]
  rw [fall_detection, hpv]

/-- C2 amended, witness: `fallenPose` is strictly past all three
thresholds (its length factor is `Real.sqrt 9 = 3`, foot y 4, shoulder y
6, body-center y 3), and `fall_detection` reports it fallen with its
center/extent box. -/
theorem strict_condA_fallen_witness :
    fall_detection [fallenPose] =
      some (.fallen ((3 : ℚ) - 1 / 2, (4 : ℚ) - 5 / 2,
        (3 : ℚ) + 1 / 2, (4 : ℚ) + 5 / 2)) :=
  strict_condA_fallen fallenPose [] 3 4 1 5 0 6 0 0 3 0 4 0
    (by with_unfolding_all decide) (by with_unfolding_all decide)
    (by with_unfolding_all decide) (by with_unfolding_all decide)
    (by with_unfolding_all decide) (by with_unfolding_all decide)
    (by with_unfolding_all decide) (by with_unfolding_all decide)
    (by with_unfolding_all decide) (by with_unfolding_all decide)
    (by with_unfolding_all decide) (by with_unfolding_all decide)
    (by
      rw [show (((6 : ℚ) : ℝ) - ((3 : ℚ) : ℝ)) ^ 2 +
        (((0 : ℚ) : ℝ) - ((0 : ℚ) : ℝ)) ^ 2 = 3 ^ 2 by norm_num,
        Real.sqrt_sq (by norm_num : (0 : ℝ) ≤ 3)]
      norm_num)
    (by
      rw [show (((6 : ℚ) : ℝ) - ((3 : ℚ) : ℝ)) ^ 2 +
        (((0 : ℚ) : ℝ) - ((0 : ℚ) : ℝ)) ^ 2 = 3 ^ 2 by norm_num,
        Real.sqrt_sq (by norm_num : (0 : ℝ) ≤ 3)]
      norm_num)
    (by
      rw [show (((6 : ℚ) : ℝ) - ((3 : ℚ) : ℝ)) ^ 2 +
        (((0 : ℚ) : ℝ) - ((0 : ℚ) : ℝ)) ^ 2 = 3 ^ 2 by norm_num,
        Real.sqrt_sq (by norm_num : (0 : ℝ) ≤ 3)]
      norm_num)

/-- Congruence of the per-person verdict in the twelve read positions:
two keypoint vectors agreeing at every position of `readIdx` get the same
verdict. -/
theorem poseVerdict_congr (p q : Pose)
    (h : ∀ j ∈ readIdx, p[j]? = q[j]?) :
    poseVerdict p = poseVerdict q := by
  have e2 := h 2 (by decide)
  have e3 := h 3 (by decide)
  have e4 := h 4 (by decide)
  have e5 := h 5 (by decide)
  have e22 := h 22 (by decide)
  have e23 := h 23 (by decide)
  have e26 := h 26 (by decide)
  have e40 := h 40 (by decide)
  have e41 := h 41 (by decide)
  have e44 := h 44 (by decide)
  have e53 := h 53 (by decide)
  have e56 := h 56 (by decide)
  unfold poseVerdict
  rw [e2, e3, e4, e5, e22, e23, e26, e40, e41, e44, e53, e56]

/-- C10: the classifier's verdict, box included, depends only on
positions 2-5 (box center and extent), 22/23 (left shoulder), 26 (right
shoulder y), 40/41 (left body-center), 44 (right body-center y), 53
(left foot y) and 56 (right foot y) of each person's keypoint vector:
two detection sequences that agree person-by-person at exactly those
positions get the same result, so no detection or landmark confidence
value ever influences it. -/
theorem fall_detection_depends_only_on_read_fields (ps qs : List Pose)
    (h : List.Forall₂ (fun p q => ∀ j ∈ readIdx, p[j]? = q[j]?) ps qs) :
    fall_detection ps = fall_detection qs := by
  induction h with
  | nil => rfl
  | @cons p q ps2 qs2 hpq htail ih =>
    rw [fall_detection, fall_detection, poseVerdict_congr p q hpq]
    cases poseVerdict q with
    | none => rfl
    | some v =>
      cases v with
      | upright => exact ih
      | fallen box => rfl

/-- C10 witness: changing only the detection-confidence entry (position
6) of a keypoint vector leaves the classification unchanged. -/
theorem fall_detection_depends_only_witness :
    fall_detection [uprightPose] = fall_detection [uprightPose.set 6 99] :=
  fall_detection_depends_only_on_read_fields _ _
    (List.Forall₂.cons (by with_unfolding_all decide) List.Forall₂.nil)

/-- Looking up an index that never completed finds nothing in the fan-in
buffer. -/
theorem lookup_completedBuffer_not_mem {α β : Type} (g : α → β)
    (xs : List α) :
    ∀ (order : List ℕ) (i : ℕ), i ∉ order →
      (completedBuffer g xs order).lookup i = none := by
  intro order
  induction order with
  | nil =>
    intro i _
    rfl
  | cons j rest ih =>
    intro i hi
    have hij : i ≠ j := fun hc => hi (hc ▸ List.mem_cons_self j rest)
    have hirest : i ∉ rest := fun hc => hi (List.mem_cons_of_mem j hc)
    cases hx : xs[j]? with
    | none =>
      simp only [completedBuffer, hx]
      exact ih i hirest
    | some x =>
      simp only [completedBuffer, hx]
      have hb : (i == j) = false := beq_eq_false_iff_ne.mpr hij
      simp only [List.lookup, hb]
      exact ih i hirest

/-- Looking up a completed index in the fan-in buffer finds exactly the
processed value of the task submitted at that index, whatever the
completion order. -/
theorem lookup_completedBuffer_mem {α β : Type} (g : α → β) (xs : List α) :
    ∀ (order : List ℕ) (i : ℕ), i ∈ order →
      (completedBuffer g xs order).lookup i = (xs[i]?).map g := by
  intro order
  induction order with
  | nil =>
    intro i hi
    cases hi
  | cons j rest ih =>
    intro i hi
    by_cases hij : i = j
    · subst hij
      cases hx : xs[i]? with
      | none =>
        simp only [completedBuffer, hx, Option.map_none']
        by_cases hirest : i ∈ rest
        · rw [ih i hirest, hx]
          rfl
        · exact lookup_completedBuffer_not_mem g xs rest i hirest
      | some x =>
        simp only [completedBuffer, hx]
        simp [List.lookup]
    · have hirest : i ∈ rest := by
        cases hi with
        | head => exact absurd rfl hij
        | tail _ htl => exact htl
      cases hx : xs[j]? with
      | none =>
        simp only [completedBuffer, hx]
        exact ih i hirest
      | some x =>
        simp only [completedBuffer, hx]
        have hb : (i == j) = false := beq_eq_false_iff_ne.mpr hij
        simp only [List.lookup, hb]
        exact ih i hirest

/-- Reading every submission index in order through `Option.map` yields
the mapped input list. -/
theorem filterMap_range_getElem {α β : Type} (g : α → β) :
    ∀ xs : List α,
      (List.range xs.length).filterMap (fun i => (xs[i]?).map g) =
        xs.map g := by
  intro xs
  induction xs with
  | nil => rfl
  | cons x rest ih =>
    rw [List.length_cons, List.range_succ_eq_map, List.filterMap_cons]
    simp only [List.getElem?_cons_zero, Option.map_some']
    rw [List.filterMap_map]
    have hcomp : ((fun i => ((x :: rest)[i]?).map g) ∘ Nat.succ) =
        fun i => (rest[i]?).map g := by
      funext i
      simp
    rw [hcomp, ih, List.map_cons]

/-- C3: for every finite input, every worker count, and every possible
completion order of the concurrently processed frames (any permutation of
the submission indices), the scheduler emits exactly the per-frame
processing of the input in the input's original index order: no
reordering, duplication, or omission. -/
theorem scheduler_preserves_input_order {α β : Type} (workerCount : ℕ)
    (g : α → β) (xs : List α) (order : List ℕ)
    (h : order.Perm (List.range xs.length)) :
    scheduleRun workerCount g xs order = xs.map g := by
  unfold scheduleRun emitInOrder
  rw [List.filterMap_congr fun i hi =>
    lookup_completedBuffer_mem g xs order i (h.mem_iff.mpr hi)]
  exact filterMap_range_getElem g xs

/-- C3 witness: a three-task run on a pool of two workers completing in
the order 2, 0, 1 still emits the processed values in submission
order. -/
theorem scheduler_preserves_input_order_witness :
    scheduleRun 2 (fun n => n + 1) [10, 20, 30] [2, 0, 1] = [11, 21, 31] :=
  (scheduler_preserves_input_order 2 (fun n => n + 1) [10, 20, 30] [2, 0, 1]
    (by decide)).trans (by decide)

/-- Evaluation of the single-fallen-frame scenario pipeline: every frame
comes back `ok`; the fallen frame carries the alarm overlay for its box
(5/2, 3/2, 7/2, 13/2), every other frame is the bare prepared frame. -/
theorem process_video_scenario (textHeight : ℚ) (prep : Frame → ℕ) (k : ℕ) :
    ∀ frames : List Frame,
      process_video textHeight prep (scenarioEx k) frames =
        .ok (frames.map fun f =>
          if f = k then
            draw_falling_alarm textHeight ⟨prep f, []⟩
              (5 / 2, 3 / 2, 7 / 2, 13 / 2)
          else ⟨prep f, []⟩) := by
  have hF : fall_detection [fallenPose] =
      some (.fallen (5 / 2, 3 / 2, 7 / 2, 13 / 2)) := by
    with_unfolding_all decide
  have hU : fall_detection [uprightPose] = some .upright := by
    with_unfolding_all decide
  intro frames
  induction frames with
  | nil => rfl
  | cons f fs ih =>
    by_cases hf : f = k
    · simp [process_video, process_frame, scenarioEx, annotate, hf, hF, ih]
    · simp [process_video, process_frame, scenarioEx, annotate, hf, hU, ih]

/-- C4: the session drops its first source frame, so the claimed
behaviour fails on the code: for the ten-frame source 0..9 with the
fallen keypoint pattern on frame 5 and upright patterns everywhere else,
the session emits only nine frames — the processed frames 1..9, in
order — with the alarm overlay at output position 4, where the claim
says ten frames with the alarm on frame 5.  `prepare_vid_out` consumes
the first frame with `vid_cap.read()` (src/main.py line 127) before the
read loop (lines 156-159) collects the rest; the source's own comment at
lines 129-131 flags the frame acquisition as needing a fix, so the
specified behaviour is the intent and the dropped frame a slip. -/
theorem first_frame_dropped_by_session :
    ∃ images : List Image,
      video_session 22 (fun j => j) (scenarioEx 5) (List.range 10) =
        .ok images ∧
      images.length = 9 ∧
      ∀ i : Fin images.length,
        (images.get i).base = i.val + 1 ∧
        (hasAlarm (images.get i) = true ↔ i.val = 4) := by
  unfold video_session
  rw [show (List.range 10).tail = (List.range 9).map (fun j => j + 1)
    from rfl]
  rw [process_video_scenario]
  refine ⟨_, rfl, by simp, ?_⟩
  intro i
  rw [List.get_eq_getElem, List.getElem_map, List.getElem_map,
    List.getElem_range]
  by_cases hik : i.val + 1 = 5
  · have h4 : i.val = 4 := by omega
    simp [hik, h4, draw_falling_alarm, hasAlarm]
  · have h4 : i.val ≠ 4 := by omega
    simp [hik, h4, hasAlarm]

/-- Evaluation of the pipeline under an extractor reporting no
detections: every frame processes to its bare prepared frame. -/
theorem process_video_no_detections (textHeight : ℚ) (prep : Frame → ℕ) :
    ∀ frames : List Frame,
      process_video textHeight prep (fun _ => .ok []) frames =
        .ok (frames.map fun f => ⟨prep f, []⟩) := by
  intro frames
  induction frames with
  | nil => rfl
  | cons f fs ih =>
    simp [process_video, process_frame, fall_detection, annotate, ih]

/-- C5 counterexample: the batch pipeline materializes every processed
frame before emitting any, so on a 100-frame input the number of
completed-but-not-yet-emitted results at the start of emission is 100,
and 200 on a 200-frame input: it equals the total input length instead
of staying within pool size plus a fixed slack (Python's default pool
size is at most 32), and no intake stalling bounds it. -/
theorem reorder_buffer_unbounded :
    bufferedResultsAtEmission 22 (fun j => j) (fun _ => .ok [])
      (List.range 100) = 100 ∧
    bufferedResultsAtEmission 22 (fun j => j) (fun _ => .ok [])
      (List.range 200) = 200 := by
  constructor
  · unfold bufferedResultsAtEmission
    rw [process_video_no_detections]
    exact (List.length_map _ _).trans (List.length_range _)
  · unfold bufferedResultsAtEmission
    rw [process_video_no_detections]
    exact (List.length_map _ _).trans (List.length_range _)

/-- Helper: when every frame of a run processes successfully, the run
returns exactly one output image per input frame. -/
theorem process_video_ok_length (textHeight : ℚ) (prep : Frame → ℕ)
    (ex : Frame → Except PipeError (List Pose)) :
    ∀ frames : List Frame,
      (∀ f ∈ frames, ∃ img, process_frame textHeight prep ex f = .ok img) →
      ∃ images, process_video textHeight prep ex frames = .ok images ∧
        images.length = frames.length := by
  intro frames
  induction frames with
  | nil =>
    intro _
    exact ⟨[], rfl, rfl⟩
  | cons f fs ih =>
    intro h
    obtain ⟨img, himg⟩ := h f (List.mem_cons_self f fs)
    obtain ⟨images, he, hl⟩ := ih fun a ha => h a (List.mem_cons_of_mem f ha)
    refine ⟨img :: images, ?_, by simp [hl]⟩
    simp [process_video, himg, he]

/-- C5 amended: src/main.py lines 155-165 give no backpressure and no
bounded reorder window: the batch run collects the entire processed
result list in memory before the write loop starts, so on any run whose
frames all process successfully the number of completed-but-not-yet-
emitted results at the start of emission equals the total input frame
count, unbounded in the number of input frames. -/
theorem buffered_results_eq_total_frames (textHeight : ℚ) (prep : Frame → ℕ)
    (ex : Frame → Except PipeError (List Pose)) (frames : List Frame)
    (h : ∀ f ∈ frames, ∃ img, process_frame textHeight prep ex f = .ok img) :
    bufferedResultsAtEmission textHeight prep ex frames = frames.length := by
  obtain ⟨images, he, hl⟩ := process_video_ok_length textHeight prep ex frames h
  simp [bufferedResultsAtEmission, he, hl]

/-- C5 amended, witness on a concrete three-frame run. -/
theorem buffered_results_eq_total_frames_witness :
    bufferedResultsAtEmission 22 (fun j => j) (fun _ => .ok []) [0, 1, 2] =
      3 :=
  buffered_results_eq_total_frames 22 (fun j => j) (fun _ => .ok [])
    [0, 1, 2] (fun f _ => ⟨⟨f, []⟩, rfl⟩)

end HFD
